import Mathlib

/-!
# The `stress` utility (`cmd/stress/stress.go`)

A shallow embedding of `main` of `cmd/stress/stress.go`:

* start-up validation of the flags (lines 65-84),
* one iteration of a worker goroutine (lines 88-120), with the goroutine that
  watches the timeout of the running process (lines 93-110),
* the aggregator loop (lines 123-179) with `displayProgress` (lines 127-135).

Conventions.

* `[]byte` is `List Byte`. `time.Duration` is `int64` and `int` is taken to be
  64 bits wide; both are `Int` here, and every arithmetic operation of the
  source on them is followed by `wrap64`, the two's complement wrap-around of Go.
* What the program does to the outside world (printing, creating and writing
  files, signalling a process) is recorded as a list of actions, in program
  order. A `Printf` is recorded as its format string and its arguments; the
  formatting itself is not evaluated. A call of `os.Exit` ends the run with the
  status recorded.
* What the outside world answers (the output and error of the executed command,
  the elapsed time, the outcome of `ioutil.TempFile`, which branch a `select`
  takes) is an input of the model.
-/

namespace Stress

/-! ## Machine integers -/

/-- Two's complement wrap-around of a 64-bit signed integer. -/
def wrap64 (x : Int) : Int := (x + 2 ^ 63) % 2 ^ 64 - 2 ^ 63

/-- Go's `a / b` on `int64`: the quotient truncated towards zero, wrapped
(`b` is not zero at the one place the source divides). -/
def div64 (a b : Int) : Int := wrap64 (Int.tdiv a b)

/-- The initial value of `min`, `1<<63 - 1`. -/
def maxInt64 : Int := 2 ^ 63 - 1

/-! ## Data -/

/-- An element of a Go `[]byte`. -/
abbrev Byte := UInt8

/-- A compiled `*regexp.Regexp`, seen through `Match` only. -/
abbrev Matcher := List Byte → Bool

/-- The flags of the command line and `flag.Args()`. -/
structure Flags where
  flagP : Int
  flagLimit : Int
  flagTimeout : Int
  flagKill : Bool
  flagFailure : String
  flagIgnore : String
  flagOutput : String
  flagFailFast : Bool
  args : List String

/-- The Go `type result struct`, `out []byte; duration time.Duration`. -/
structure result where
  out : List Byte
  duration : Int
deriving DecidableEq, Repr

deriving instance DecidableEq for Except

/-- An argument of a recorded `Printf`. `passRate runs total` stands for the
floating point value `100.0*(float64(runs)/float64(total))`, which is not
evaluated. -/
inductive Arg where
  | int (n : Int)
  | dur (d : Int)
  | str (s : String)
  | bytes (b : List Byte)
  | passRate (runs total : Int)
deriving DecidableEq, Repr

/-- The observable actions of `main`. -/
inductive Action where
  /-- The call `flag.Usage()`. -/
  | usage
  /-- A call of `fmt.Printf`. -/
  | printf (format : String) (args : List Arg)
  /-- A call of `fmt.Println`. -/
  | println (args : List Arg)
  /-- The call `ioutil.TempFile(filepath.Split(*flagOutput))` together with what it
  returned: the name of the file created, or the text of the error. -/
  | tempFile (flagOutput : String) (answer : Except String String)
  /-- The call `f.Write(b)` on the file named `name`. -/
  | write (name : String) (b : List Byte)
  /-- The call `f.Close()` on the file named `name`. -/
  | close (name : String)
deriving DecidableEq, Repr

/-! ## Start-up (lines 65-84) -/

/-- How the start-up part of `main` ends: with `os.Exit(code)` after the
recorded actions, or with both matchers set up and the workers started. -/
inductive Startup where
  | exit (trace : List Action) (code : Int)
  | started (failureRe ignoreRe : Option Matcher)

/-- Lines 65-84 of `main`. `compile` is `regexp.Compile`. -/
def startup (compile : String → Except String Matcher) (f : Flags) : Startup :=
  if f.flagP ≤ 0 ∨ f.flagTimeout ≤ 0 ∨ f.args.length = 0 then
    .exit [.usage] 1
  else
    let failure : Except String (Option Matcher) :=
      if f.flagFailure ≠ "" then (compile f.flagFailure).map some else .ok none
    match failure with
    | .error e => .exit [.println [.str "bad failure regexp:", .str e]] 1
    | .ok failureRe =>
      let ignore : Except String (Option Matcher) :=
        if f.flagIgnore ≠ "" then (compile f.flagIgnore).map some else .ok none
      match ignore with
      | .error e => .exit [.println [.str "bad ignore regexp:", .str e]] 1
      | .ok ignoreRe => .started failureRe ignoreRe

/-! ## One iteration of a worker (lines 88-120) -/

/-- The bytes of the Go string `"\nERROR: "`. -/
def errorTrailer : List Byte := [10, 69, 82, 82, 79, 82, 58, 32]

/-- Line 92: the goroutine watching the timeout is started for an execution
exactly when `*flagTimeout > 0`. -/
def guardStarted (f : Flags) : Bool := decide (f.flagTimeout > 0)

/-- Lines 114-118. `err` is `none` for a nil error and `some text` otherwise,
`text` being what `%v` prints for it. -/
def classify (failureRe ignoreRe : Option Matcher) (out : List Byte)
    (err : Option (List Byte)) : List Byte :=
  let failureOk : Bool := match failureRe with
    | none => true
    | some re => re out
  let ignoreOk : Bool := match ignoreRe with
    | none => true
    | some re => !re out
  match err with
  | some text => if failureOk && ignoreOk then out ++ (errorTrailer ++ text) else []
  | none => []

/-- Lines 112-119: the `result` sent on the channel `results` by an iteration in
which `cmd.CombinedOutput()` returned `out, err` and `time.Since(t0)` is
`elapsed`. -/
def workerResult (failureRe ignoreRe : Option Matcher) (out : List Byte)
    (err : Option (List Byte)) (elapsed : Int) : result :=
  { out := classify failureRe ignoreRe out err, duration := elapsed }

/-! ## The goroutine watching the timeout (lines 93-110) -/

/-- The case of a `select` that is taken: `<-done`, `<-time.After(*flagTimeout)`
or `<-time.After(10 * time.Second)`. -/
inductive Branch where
  | done
  | timeout
  | grace
deriving DecidableEq, Repr

/-- Where the goroutine stands: at its first `select` (line 94), at its second
`select` (line 104), or returned. -/
inductive Guard where
  | select1
  | select2
  | returned
deriving DecidableEq, Repr

/-- What the goroutine does to the process or prints. -/
inductive GuardAction where
  /-- The call `fmt.Printf("process %v timed out\n", cmd.Process.Pid)`. -/
  | printTimedOut
  /-- The call `cmd.Process.Signal(syscall.SIGABRT)`. -/
  | signalSIGABRT
  /-- The call `cmd.Process.Kill()`. -/
  | kill
deriving DecidableEq, Repr

/-- One `select` of the goroutine and the code that follows it up to the next
`select` or `return`. `none`: the `select` the goroutine stands at has no such
case, or the goroutine has returned. -/
def guardStep (flagKill : Bool) : Guard → Branch → Option (Guard × List GuardAction)
  | .select1, .done => some (.returned, [])
  | .select1, .timeout =>
    if !flagKill then some (.returned, [.printTimedOut])
    else some (.select2, [.signalSIGABRT])
  | .select2, .done => some (.returned, [])
  | .select2, .grace => some (.returned, [.kill])
  | _, _ => none

/-- The goroutine run along the cases its `select`s take, with the actions
issued, in order. -/
def guardRun (flagKill : Bool) : Guard → List Branch → Option (Guard × List GuardAction)
  | g, [] => some (g, [])
  | g, b :: bs =>
    match guardStep flagKill g b with
    | none => none
    | some (g1, acts) =>
      match guardRun flagKill g1 bs with
      | none => none
      | some (g2, rest) => some (g2, acts ++ rest)

/-! ## The aggregator (lines 123-179) -/

/-- The variables `runs`, `fails`, `totalDuration`, `max`, `min` of `main`. -/
structure Stats where
  runs : Int
  fails : Int
  totalDuration : Int
  max : Int
  min : Int
deriving DecidableEq, Repr

/-- Lines 123-125. -/
def Stats.initial : Stats :=
  { runs := 0, fails := 0, totalDuration := 0, max := 0, min := maxInt64 }

/-- Lines 127-135, the closure `displayProgress`. -/
def displayProgress (s : Stats) : Action :=
  let total := wrap64 (s.runs + s.fails)
  if total = 0 then
    .printf "no runs so far\n" []
  else
    .printf "%v runs so far, %v failures (%.2f%% pass rate). %v avg, %v max, %v min\n"
      [.int s.runs, .int s.fails, .passRate s.runs total,
       .dur (div64 s.totalDuration total), .dur s.max, .dur s.min]

/-- What the `select` of line 137 receives: a `result` from the channel
`results`, or a tick of the ticker. A `result` comes with the answer
`ioutil.TempFile` gives if it is called while this `result` is handled. -/
inductive Event where
  | res (r : result) (tmp : Except String String)
  | tick

/-- The effect of one pass through the body of the loop: the variables
afterwards, the actions, and the status of `os.Exit` if it was called. -/
structure Outcome where
  state : Stats
  trace : List Action
  exit : Option Int
deriving DecidableEq, Repr

/-- Lines 139-146: the counters and durations are updated. -/
def record (s : Stats) (r : result) : Stats :=
  { runs := wrap64 (s.runs + 1)
    fails := s.fails
    totalDuration := wrap64 (s.totalDuration + r.duration)
    max := if r.duration > s.max then r.duration else s.max
    min := if r.duration < s.min then r.duration else s.min }

/-- Lines 163-167: the name of the file and the output are printed, the output
cut to its first `2<<10` bytes when it is longer. -/
def printFailure (name : String) (out : List Byte) : Action :=
  if out.length > 2048 then .printf "%s\n%s\n…\n" [.str name, .bytes (out.take 2048)]
  else .printf "%s\n%s\n" [.str name, .bytes out]

/-- Lines 153-175, reached when `len(res.out) != 0`; `s` holds the variables
before `fails++`. -/
def onFailure (f : Flags) (s : Stats) (r : result) (tmp : Except String String) : Outcome :=
  let s1 : Stats := { s with fails := wrap64 (s.fails + 1) }
  let t1 : List Action := [displayProgress s1, .tempFile f.flagOutput tmp]
  match tmp with
  | .error e => ⟨s1, t1 ++ [.printf "failed to create temp file: %v\n" [.str e]], some 1⟩
  | .ok name =>
    let t2 : List Action := t1 ++ [.write name r.out, .close name]
    let t3 : List Action := t2 ++ [printFailure name r.out]
    if f.flagFailFast then
      ⟨s1, t3 ++ [.printf "fail fast enabled, exiting\n" []], some 1⟩
    else if s1.fails ≥ f.flagLimit then
      ⟨s1, t3 ++ [.printf "failure limit hit, exiting\n" []], some 1⟩
    else ⟨s1, t3, none⟩

/-- Lines 138-178: one pass through the body of the loop. -/
def step (f : Flags) (s : Stats) : Event → Outcome
  | .res r tmp =>
    let s1 := record s r
    let t1 : List Action := if s1.runs = 1 then [displayProgress s1] else []
    if r.out.length = 0 then ⟨s1, t1, none⟩
    else
      let o := onFailure f s1 r tmp
      ⟨o.state, t1 ++ o.trace, o.exit⟩
  | .tick => ⟨s, [displayProgress s], none⟩

/-- A run of the loop of line 136 over the events it receives. -/
structure Run where
  state : Stats
  trace : List Action
  exit : Option Int
  /-- The number of events handled, the one during which `os.Exit` was called
  included. -/
  handled : Nat
deriving DecidableEq, Repr

/-- The loop of line 136 on the events `evs`, in the order received: it goes on
until `os.Exit` is called or the events are used up. -/
def aggregate (f : Flags) : Stats → List Event → Run
  | s, [] => ⟨s, [], none, 0⟩
  | s, e :: es =>
    let o := step f s e
    match o.exit with
    | some code => ⟨o.state, o.trace, some code, 1⟩
    | none =>
      let r := aggregate f o.state es
      ⟨r.state, o.trace ++ r.trace, r.exit, r.handled + 1⟩

/-! ## Vocabulary of the statements -/

/-- The event is a `result` with a non-empty `out`. -/
def Event.isFailure : Event → Bool
  | .res r _ => r.out.length != 0
  | .tick => false

/-- The event is a `result`. -/
def Event.isResult : Event → Bool
  | .res _ _ => true
  | .tick => false

/-- The answer of `ioutil.TempFile` that comes with the event is a file. -/
def Event.tempFileOk : Event → Bool
  | .res _ (.ok _) => true
  | .res _ (.error _) => false
  | .tick => true

/-- The number of `result`s among the events. -/
def numResults (evs : List Event) : Nat := evs.countP Event.isResult

/-- The number of `result`s with a non-empty `out` among the events. -/
def numFailures (evs : List Event) : Nat := evs.countP Event.isFailure

/-- The durations of the `result`s among the events, in order. -/
def durations : List Event → List Int
  | [] => []
  | .res r _ :: es => r.duration :: durations es
  | .tick :: es => durations es

/-- The names of the files created by the calls of `ioutil.TempFile` in a trace. -/
def filesCreated : List Action → List String
  | [] => []
  | .tempFile _ (.ok name) :: as => name :: filesCreated as
  | _ :: as => filesCreated as

/-- The number of calls of `ioutil.TempFile` in a trace. -/
def tempFileCalls : List Action → Nat
  | [] => 0
  | .tempFile _ _ :: as => tempFileCalls as + 1
  | _ :: as => tempFileCalls as

/-- The calls of `Write` in a trace: file name and bytes. -/
def writes : List Action → List (String × List Byte)
  | [] => []
  | .write name b :: as => (name, b) :: writes as
  | _ :: as => writes as

/-- The bytes that the calls of `Write` in a trace put into the files, file by
file: `accepted name b` is the count `n` that the call `f.Write(b)` on the file
`name` returns (`n` is `len(b)` when the call succeeds and less when it fails), so
that the call writes the first `n` bytes of `b`. Lines 161-162 drop what `Write`
and `Close` return, so `n` is not an input of `step`. -/
def bytesWritten (accepted : String → List Byte → Nat) :
    List Action → List (String × List Byte)
  | [] => []
  | .write name b :: as => (name, b.take (accepted name b)) :: bytesWritten accepted as
  | _ :: as => bytesWritten accepted as

/-- Flags used in the examples: `-p 1 -limit 3 -timeout 1s -o /tmp/x ./t`. -/
def exampleFlags : Flags :=
  { flagP := 1, flagLimit := 3, flagTimeout := 1000000000, flagKill := true,
    flagFailure := "", flagIgnore := "", flagOutput := "/tmp/x", flagFailFast := false,
    args := ["./t"] }

/-- The same flags with `-f`. -/
def exampleFlagsFailFast : Flags := { exampleFlags with flagFailFast := true }

/-- The text of the error of a command that exits with status 1. -/
def exitStatus1 : List Byte := [101, 120, 105, 116, 32, 115, 116, 97, 116, 117, 115, 32, 49]

/-- A run that took 10ms, printed nothing and exited with status 0. -/
def passingResult : result := workerResult none none [] none 10000000

/-- A run that took 30ms, printed `x` and exited with status 1. -/
def failingResult : result := workerResult none none [120] (some exitStatus1) 30000000

/-- A passing run, a tick, then three failing runs, all files created. -/
def exampleEvents : List Event :=
  [.res passingResult (.ok "/tmp/x0"), .tick, .res failingResult (.ok "/tmp/x1"),
   .res failingResult (.ok "/tmp/x2"), .res failingResult (.ok "/tmp/x3")]

/-! ## Arithmetic of `wrap64` -/

theorem wrap64_of_range (x : Int) (h1 : -2 ^ 63 ≤ x) (h2 : x < 2 ^ 63) : wrap64 x = x := by
  unfold wrap64
  omega

theorem wrap64_range (x : Int) : -2 ^ 63 ≤ wrap64 x ∧ wrap64 x < 2 ^ 63 := by
  unfold wrap64
  omega

theorem wrap64_add_left (a b : Int) : wrap64 (wrap64 a + b) = wrap64 (a + b) := by
  unfold wrap64
  omega

/-! ## The worker -/

/-- C1. The `result` a worker sends has a non-empty `out` exactly when the error
of the run is not nil, the failure matcher is absent or matches the captured
output, and the ignore matcher is absent or does not match it. With a nil error
the `out` sent is empty whatever the matchers are. -/
theorem workerResult_out_nonempty_iff (failureRe ignoreRe : Option Matcher)
    (out : List Byte) (err : Option (List Byte)) (elapsed : Int) :
    ((workerResult failureRe ignoreRe out err elapsed).out ≠ [] ↔
      (err ≠ none ∧
        (failureRe = none ∨ ∃ re, failureRe = some re ∧ re out = true) ∧
        (ignoreRe = none ∨ ∃ re, ignoreRe = some re ∧ re out = false))) ∧
    (workerResult failureRe ignoreRe out none elapsed).out = [] ∧
    (∀ text, (workerResult none none [] (some text) elapsed).out ≠ []) := by
  refine ⟨?_, rfl, fun text => by simp [workerResult, classify, errorTrailer]⟩
  cases err with
  | none => simp [workerResult, classify]
  | some text =>
    cases failureRe <;> cases ignoreRe <;>
      simp [workerResult, classify, errorTrailer]

/-! ## The goroutine watching the timeout -/

/-- C8. In every run of the goroutine from its first `select`: if `Kill` is
issued then `-kill` is set, the cases taken are the timeout and then the grace
timer, and the actions are `Signal(SIGABRT)` followed by `Kill`; if the case
`<-done` is taken, at either `select`, `Kill` is not issued; and with `-kill`
unset neither `Signal(SIGABRT)` nor `Kill` is issued. -/
theorem guardRun_kill (flagKill : Bool) (bs : List Branch) (g : Guard)
    (acts : List GuardAction) (h : guardRun flagKill .select1 bs = some (g, acts)) :
    (GuardAction.kill ∈ acts →
      flagKill = true ∧ bs = [.timeout, .grace] ∧ acts = [.signalSIGABRT, .kill]) ∧
    (Branch.done ∈ bs → GuardAction.kill ∉ acts) ∧
    (flagKill = false → GuardAction.signalSIGABRT ∉ acts ∧ GuardAction.kill ∉ acts) := by
  rcases bs with _ | ⟨b1, _ | ⟨b2, _ | ⟨b3, rest⟩⟩⟩
  · simp [guardRun] at h
    obtain ⟨-, rfl⟩ := h
    simp
  · cases b1 <;> cases flagKill <;> simp [guardRun, guardStep] at h <;>
      (obtain ⟨-, rfl⟩ := h; simp)
  · cases b1 <;> cases b2 <;> cases flagKill <;> simp [guardRun, guardStep] at h <;>
      (obtain ⟨-, rfl⟩ := h; simp)
  · cases b1 <;> cases b2 <;> cases b3 <;> cases flagKill <;>
      simp [guardRun, guardStep] at h

/-- The run of the goroutine in which the process is killed. -/
theorem guardRun_kill_witness :
    guardRun true .select1 [.timeout, .grace] = some (.returned, [.signalSIGABRT, .kill]) ∧
    ((GuardAction.kill ∈ [GuardAction.signalSIGABRT, .kill] →
      true = true ∧ [Branch.timeout, .grace] = [.timeout, .grace] ∧
        [GuardAction.signalSIGABRT, .kill] = [.signalSIGABRT, .kill]) ∧
    (Branch.done ∈ [Branch.timeout, .grace] →
      GuardAction.kill ∉ [GuardAction.signalSIGABRT, .kill]) ∧
    (true = false → GuardAction.signalSIGABRT ∉ [GuardAction.signalSIGABRT, .kill] ∧
      GuardAction.kill ∉ [GuardAction.signalSIGABRT, .kill])) :=
  ⟨rfl, guardRun_kill true [.timeout, .grace] .returned [.signalSIGABRT, .kill] rfl⟩

/-! ## Start-up -/

/-- C9, as the claim states it, fails: with `-p 1`, `-timeout 0` and a command,
the start-up calls `flag.Usage()` and leaves with status 1. -/
theorem timeout_zero_exits_with_usage :
    (1 : Int) ≤ 1 ∧ [("./t" : String)].length ≠ 0 ∧
    startup (fun _ => .error "no regexp")
      { flagP := 1, flagLimit := 100, flagTimeout := 0, flagKill := true,
        flagFailure := "", flagIgnore := "", flagOutput := "/tmp/x",
        flagFailFast := false, args := ["./t"] } = .exit [.usage] 1 := by
  refine ⟨by decide, by decide, ?_⟩
  simp [startup]

/-- C9, amended. Either the timeout is not positive and the start-up calls
`flag.Usage()` and leaves with status 1, whatever the other flags are, so that
no worker runs; or it is positive and every execution of a worker starts the
goroutine watching the timeout. -/
theorem startup_rejects_nonpositive_timeout (compile : String → Except String Matcher) (f : Flags) :
    (f.flagTimeout ≤ 0 ∧ startup compile f = .exit [.usage] 1 ∧ guardStarted f = false) ∨
    (0 < f.flagTimeout ∧ guardStarted f = true) := by
  by_cases h : f.flagTimeout ≤ 0
  · left
    refine ⟨h, ?_, ?_⟩
    · simp [startup, h]
    · simp [guardStarted, h]
  · right
    have h1 : 0 < f.flagTimeout := by omega
    exact ⟨h1, by simp [guardStarted, h1]⟩

/-! ## One pass through the loop of the aggregator -/

theorem step_tick (f : Flags) (s : Stats) :
    step f s .tick = ⟨s, [displayProgress s], none⟩ := rfl

theorem step_res_runs (f : Flags) (s : Stats) (r : result) (tmp : Except String String) :
    (step f s (.res r tmp)).state.runs = wrap64 (s.runs + 1) := by
  unfold step onFailure
  cases tmp <;> simp only [record] <;> repeat (split <;> try rfl)

theorem step_res_fails (f : Flags) (s : Stats) (r : result) (tmp : Except String String) :
    (step f s (.res r tmp)).state.fails =
      if r.out.length = 0 then s.fails else wrap64 (s.fails + 1) := by
  unfold step onFailure
  cases tmp <;> simp only [record] <;> repeat (split <;> try rfl)

theorem step_res_totalDuration (f : Flags) (s : Stats) (r : result)
    (tmp : Except String String) :
    (step f s (.res r tmp)).state.totalDuration = wrap64 (s.totalDuration + r.duration) := by
  unfold step onFailure
  cases tmp <;> simp only [record] <;> repeat (split <;> try rfl)

theorem step_res_max (f : Flags) (s : Stats) (r : result) (tmp : Except String String) :
    (step f s (.res r tmp)).state.max = if r.duration > s.max then r.duration else s.max := by
  unfold step onFailure
  cases tmp <;> simp only [record] <;> repeat (split <;> try rfl)

theorem step_res_min (f : Flags) (s : Stats) (r : result) (tmp : Except String String) :
    (step f s (.res r tmp)).state.min = if r.duration < s.min then r.duration else s.min := by
  unfold step onFailure
  cases tmp <;> simp only [record] <;> repeat (split <;> try rfl)

theorem step_res_exit_ok (f : Flags) (s : Stats) (r : result) (name : String) :
    (step f s (.res r (.ok name))).exit =
      if r.out.length = 0 then none
      else if f.flagFailFast = true then some 1
      else if wrap64 (s.fails + 1) ≥ f.flagLimit then some 1
      else none := by
  unfold step onFailure
  simp only [record]
  repeat (split <;> try rfl)

theorem aggregate_cons (f : Flags) (s : Stats) (e : Event) (es : List Event) :
    aggregate f s (e :: es) =
      match (step f s e).exit with
      | some code => ⟨(step f s e).state, (step f s e).trace, some code, 1⟩
      | none =>
        ⟨(aggregate f (step f s e).state es).state,
         (step f s e).trace ++ (aggregate f (step f s e).state es).trace,
         (aggregate f (step f s e).state es).exit,
         (aggregate f (step f s e).state es).handled + 1⟩ := rfl

/-! ## The counters -/

theorem step_counters (f : Flags) (s : Stats) (e : Event) (h0 : 0 ≤ s.fails)
    (h1 : s.fails ≤ s.runs) (h2 : s.runs + (if e.isResult then 1 else 0) < 2 ^ 63) :
    (step f s e).state.runs = s.runs + (if e.isResult then 1 else 0) ∧
    (step f s e).state.fails = s.fails + (if e.isFailure then 1 else 0) := by
  cases e with
  | tick => simp [step_tick, Event.isResult, Event.isFailure]
  | res r tmp =>
    simp only [Event.isResult, if_true] at h2
    rw [step_res_runs, step_res_fails]
    simp only [Event.isResult, Event.isFailure, if_true]
    rw [wrap64_of_range (s.runs + 1) (by omega) (by omega)]
    refine ⟨rfl, ?_⟩
    by_cases hl : r.out.length = 0
    · simp [hl]
    · simp only [hl, if_false]
      rw [wrap64_of_range (s.fails + 1) (by omega) (by omega)]
      simp [hl]

theorem aggregate_handled_le (f : Flags) :
    ∀ (evs : List Event) (s : Stats), (aggregate f s evs).handled ≤ evs.length := by
  intro evs
  induction evs with
  | nil => intro s; simp [aggregate]
  | cons e es ih =>
    intro s
    rw [aggregate_cons]
    cases hx : (step f s e).exit with
    | some code => simp
    | none => simpa using ih (step f s e).state

theorem aggregate_handled_of_exit_none (f : Flags) :
    ∀ (evs : List Event) (s : Stats), (aggregate f s evs).exit = none →
      (aggregate f s evs).handled = evs.length := by
  intro evs
  induction evs with
  | nil => intro s _; simp [aggregate]
  | cons e es ih =>
    intro s
    rw [aggregate_cons]
    cases hx : (step f s e).exit with
    | some code => simp
    | none =>
      intro h
      simpa using ih (step f s e).state h

theorem numResults_cons (e : Event) (es : List Event) :
    numResults (e :: es) = numResults es + (if e.isResult then 1 else 0) := by
  simp [numResults, List.countP_cons]

theorem numFailures_cons (e : Event) (es : List Event) :
    numFailures (e :: es) = numFailures es + (if e.isFailure then 1 else 0) := by
  simp [numFailures, List.countP_cons]

theorem isFailure_isResult (e : Event) (h : e.isFailure = true) : e.isResult = true := by
  cases e <;> simp_all [Event.isFailure, Event.isResult]

theorem aggregate_counters (f : Flags) :
    ∀ (evs : List Event) (s : Stats), 0 ≤ s.fails → s.fails ≤ s.runs →
      s.runs + numResults evs < 2 ^ 63 →
      (aggregate f s evs).state.runs =
        s.runs + numResults (evs.take (aggregate f s evs).handled) ∧
      (aggregate f s evs).state.fails =
        s.fails + numFailures (evs.take (aggregate f s evs).handled) := by
  intro evs
  induction evs with
  | nil => intro s _ _ _; simp [aggregate, numResults, numFailures]
  | cons e es ih =>
    intro s h0 h1 h2
    rw [numResults_cons] at h2
    have himp := isFailure_isResult e
    rw [aggregate_cons]
    cases hR : e.isResult <;> cases hF : e.isFailure <;>
      simp only [hR, hF, if_true, if_false, Bool.false_eq_true, Nat.add_zero,
        Nat.cast_add, Nat.cast_one, reduceCtorEq, imp_false, not_true_eq_false] at h2 himp
    all_goals
      obtain ⟨hr, hf⟩ := step_counters f s e h0 h1 (by rw [hR]; simp; omega)
      simp only [hR, hF, if_true, if_false, Bool.false_eq_true, add_zero] at hr hf
      cases hx : (step f s e).exit with
      | some code =>
        simp only [List.take_succ_cons, List.take_zero, numResults_cons, numFailures_cons]
        simp only [numResults, numFailures, List.countP_nil]
        rw [hr, hf]
        simp [hR, hF]
      | none =>
        simp only [List.take_succ_cons, numResults_cons, numFailures_cons]
        obtain ⟨ihr, ihf⟩ := ih (step f s e).state (by rw [hf]; omega) (by rw [hf, hr]; omega)
          (by rw [hr]; omega)
        rw [ihr, ihf, hr, hf]
        simp [hR, hF]
        try omega

/-! ## Termination policy -/

theorem step_not_failure (f : Flags) (s : Stats) (e : Event) (h : e.isFailure = false) :
    (step f s e).exit = none ∧ (step f s e).state.fails = s.fails := by
  cases e with
  | tick => simp [step_tick]
  | res r tmp =>
    have hl : r.out.length = 0 := by simpa [Event.isFailure] using h
    rw [step_res_fails]
    refine ⟨?_, by simp [hl]⟩
    unfold step
    simp [hl]

theorem step_failure_ok (f : Flags) (s : Stats) (e : Event) (h : e.isFailure = true)
    (hok : e.tempFileOk = true) :
    (step f s e).state.fails = wrap64 (s.fails + 1) ∧
    (step f s e).exit =
      if f.flagFailFast = true then some 1
      else if wrap64 (s.fails + 1) ≥ f.flagLimit then some 1
      else none := by
  cases e with
  | tick => simp [Event.isFailure] at h
  | res r tmp =>
    have hl : ¬ r.out.length = 0 := by simpa [Event.isFailure] using h
    cases tmp with
    | error e => simp [Event.tempFileOk] at hok
    | ok name =>
      rw [step_res_fails, step_res_exit_ok]
      simp [hl]

theorem aggregate_limit (f : Flags) (hff : f.flagFailFast = false) (hK : f.flagLimit < 2 ^ 63) :
    ∀ (evs : List Event) (s : Stats), (∀ e ∈ evs, e.tempFileOk = true) →
      0 ≤ s.fails → s.fails < f.flagLimit →
      (s.fails + numFailures evs < f.flagLimit ∧ (aggregate f s evs).exit = none ∧
        (aggregate f s evs).handled = evs.length) ∨
      (f.flagLimit ≤ s.fails + numFailures evs ∧ (aggregate f s evs).exit = some 1 ∧
        ∃ i, (aggregate f s evs).handled = i + 1 ∧
          s.fails + numFailures (evs.take i) = f.flagLimit - 1 ∧
          s.fails + numFailures (evs.take (i + 1)) = f.flagLimit) := by
  intro evs
  induction evs with
  | nil =>
    intro s _ _ h1
    left
    simp [aggregate, numFailures, h1]
  | cons e es ih =>
    intro s hok h0 h1
    have hoks : ∀ e ∈ es, e.tempFileOk = true := fun x hx => hok x (List.mem_cons_of_mem _ hx)
    rw [aggregate_cons, numFailures_cons]
    cases hF : e.isFailure with
    | false =>
      obtain ⟨hx, hf⟩ := step_not_failure f s e hF
      simp only [hx, Bool.false_eq_true, if_false, Nat.add_zero]
      rcases ih (step f s e).state hoks (by rw [hf]; exact h0) (by rw [hf]; exact h1) with h | h
      · left
        rw [hf] at h
        simpa using h
      · right
        rw [hf] at h
        obtain ⟨h2, h3, i, h4, h5, h6⟩ := h
        refine ⟨h2, h3, i + 1, by simp [h4], ?_, ?_⟩
        · simpa [List.take_succ_cons, numFailures_cons, hF] using h5
        · simpa [List.take_succ_cons, numFailures_cons, hF] using h6
    | true =>
      obtain ⟨hf, hx⟩ := step_failure_ok f s e hF (hok e (List.mem_cons_self _ _))
      rw [wrap64_of_range (s.fails + 1) (by omega) (by omega)] at hf hx
      simp only [hff, Bool.false_eq_true, if_false] at hx
      by_cases hlim : s.fails + 1 ≥ f.flagLimit
      · right
        simp only [hlim, if_true] at hx
        simp only [hx, if_true]
        refine ⟨by push_cast; omega, trivial, 0, rfl, ?_, ?_⟩
        · simp [numFailures]; omega
        · simp [List.take_succ_cons, numFailures_cons, hF, numFailures]; omega
      · simp only [hlim, if_false] at hx
        simp only [hx, if_true]
        rcases ih (step f s e).state hoks (by rw [hf]; omega) (by rw [hf]; omega) with h | h
        · left
          rw [hf] at h
          obtain ⟨h2, h3, h4⟩ := h
          exact ⟨by push_cast; omega, h3, by simp [h4]⟩
        · right
          rw [hf] at h
          obtain ⟨h2, h3, i, h4, h5, h6⟩ := h
          refine ⟨by push_cast; omega, h3, i + 1, by simp [h4], ?_, ?_⟩
          · simp only [List.take_succ_cons, numFailures_cons, hF, if_true]
            push_cast; omega
          · simp only [List.take_succ_cons, numFailures_cons, hF, if_true]
            push_cast; omega

theorem aggregate_failFast (f : Flags) (hff : f.flagFailFast = true) :
    ∀ (evs : List Event) (s : Stats), (∀ e ∈ evs, e.tempFileOk = true) →
      (numFailures evs = 0 ∧ (aggregate f s evs).exit = none ∧
        (aggregate f s evs).handled = evs.length) ∨
      (0 < numFailures evs ∧ (aggregate f s evs).exit = some 1 ∧
        ∃ i, (aggregate f s evs).handled = i + 1 ∧
          numFailures (evs.take i) = 0 ∧ numFailures (evs.take (i + 1)) = 1) := by
  intro evs
  induction evs with
  | nil =>
    intro s _
    left
    simp [aggregate, numFailures]
  | cons e es ih =>
    intro s hok
    have hoks : ∀ e ∈ es, e.tempFileOk = true := fun x hx => hok x (List.mem_cons_of_mem _ hx)
    rw [aggregate_cons, numFailures_cons]
    cases hF : e.isFailure with
    | false =>
      obtain ⟨hx, -⟩ := step_not_failure f s e hF
      simp only [hx, Bool.false_eq_true, if_false, Nat.add_zero]
      rcases ih (step f s e).state hoks with h | h
      · left
        simpa using h
      · right
        obtain ⟨h2, h3, i, h4, h5, h6⟩ := h
        refine ⟨h2, h3, i + 1, by simp [h4], ?_, ?_⟩
        · simpa [List.take_succ_cons, numFailures_cons, hF] using h5
        · simpa [List.take_succ_cons, numFailures_cons, hF] using h6
    | true =>
      obtain ⟨-, hx⟩ := step_failure_ok f s e hF (hok e (List.mem_cons_self _ _))
      simp only [hff, if_true] at hx
      right
      simp only [hx, if_true]
      refine ⟨by omega, trivial, 0, rfl, ?_, ?_⟩
      · simp [numFailures]
      · simp [List.take_succ_cons, numFailures_cons, hF, numFailures]

/-! ## The durations -/

theorem tdiv_bounds (S n a b : Int) (hn : 0 < n) (h1 : n * a ≤ S) (h2 : S ≤ n * b) :
    a ≤ Int.tdiv S n ∧ Int.tdiv S n ≤ b := by
  by_cases hS : 0 ≤ S
  · rw [Int.tdiv_eq_ediv hS (le_of_lt hn)]
    exact ⟨Int.le_ediv_of_mul_le hn (by rw [mul_comm]; exact h1),
      Int.ediv_le_of_le_mul hn (by rw [mul_comm]; exact h2)⟩
  · have hT : 0 ≤ -S := by omega
    have e : Int.tdiv S n = -((-S) / n) := by
      rw [← Int.tdiv_eq_ediv hT (le_of_lt hn), Int.neg_tdiv, neg_neg]
    rw [e]
    have k1 : (-S) / n ≤ -a :=
      Int.ediv_le_of_le_mul hn (by rw [mul_comm, mul_neg]; omega)
    have k2 : -b ≤ (-S) / n :=
      Int.le_ediv_of_mul_le hn (by rw [mul_comm, mul_neg]; omega)
    omega

theorem sum_bounds (a b : Int) :
    ∀ ds : List Int, (∀ d ∈ ds, a ≤ d ∧ d ≤ b) →
      (ds.length : Int) * a ≤ ds.sum ∧ ds.sum ≤ (ds.length : Int) * b := by
  intro ds
  induction ds with
  | nil => intro _; simp
  | cons d ds ih =>
    intro h
    obtain ⟨h1, h2⟩ := ih (fun x hx => h x (List.mem_cons_of_mem _ hx))
    obtain ⟨h3, h4⟩ := h d (List.mem_cons_self _ _)
    simp only [List.length_cons, List.sum_cons, Nat.cast_add, Nat.cast_one]
    constructor <;> nlinarith

theorem aggregate_durations (f : Flags) :
    ∀ (evs : List Event) (s : Stats), wrap64 s.totalDuration = s.totalDuration →
      s.max ≤ (aggregate f s evs).state.max ∧
      (aggregate f s evs).state.min ≤ s.min ∧
      (∀ d ∈ durations (evs.take (aggregate f s evs).handled),
        (aggregate f s evs).state.min ≤ d ∧ d ≤ (aggregate f s evs).state.max) ∧
      (aggregate f s evs).state.totalDuration =
        wrap64 (s.totalDuration + (durations (evs.take (aggregate f s evs).handled)).sum) := by
  intro evs
  induction evs with
  | nil =>
    intro s hs
    simp [aggregate, durations, hs]
  | cons e es ih =>
    intro s hs
    rw [aggregate_cons]
    cases e with
    | tick =>
      simp only [step_tick, List.take_succ_cons, durations]
      exact ih s hs
    | res r tmp =>
      have hmax := step_res_max f s r tmp
      have hmin := step_res_min f s r tmp
      have htot := step_res_totalDuration f s r tmp
      cases hx : (step f s (.res r tmp)).exit with
      | some code =>
        simp only [List.take_succ_cons, List.take_zero, durations, List.mem_singleton,
          forall_eq, List.sum_cons, List.sum_nil, add_zero]
        rw [hmax, hmin, htot]
        refine ⟨?_, ?_, ⟨?_, ?_⟩, rfl⟩ <;> split <;> omega
      | none =>
        simp only [List.take_succ_cons, durations, List.mem_cons, forall_eq_or_imp,
          List.sum_cons]
        obtain ⟨i1, i2, i3, i4⟩ := ih (step f s (.res r tmp)).state
          (by rw [htot]
              exact wrap64_of_range _ (wrap64_range _).1 (wrap64_range _).2)
        rw [hmax] at i1
        rw [hmin] at i2
        rw [htot, wrap64_add_left] at i4
        refine ⟨?_, ?_, ⟨⟨?_, ?_⟩, i3⟩, ?_⟩
        · split at i1 <;> omega
        · split at i2 <;> omega
        · split at i2 <;> omega
        · split at i1 <;> omega
        · rw [i4, add_assoc]

/-! ## The claims on the aggregator -/

/-- C2. With `-f` unset, a limit `K` with `1 ≤ K` (an `int`, so `K < 2^63`) and
every `ioutil.TempFile` succeeding, from the initial variables: if the events hold
fewer than `K` results with a non-empty `out`, the loop handles them all without
calling `os.Exit`; otherwise it calls `os.Exit(1)` while handling the event of
index `i`, where the events before `i` hold `K - 1` such results and those up to
`i` hold `K`, that is, event `i` is the `K`-th result with a non-empty `out`. A tick
and a result with an empty `out` never end the loop, in any state. -/
theorem aggregate_exits_at_limit (f : Flags) (evs : List Event)
    (hff : f.flagFailFast = false) (h1 : 1 ≤ f.flagLimit) (hK : f.flagLimit < 2 ^ 63)
    (hok : ∀ e ∈ evs, e.tempFileOk = true) :
    (((numFailures evs : Int) < f.flagLimit ∧
        (aggregate f Stats.initial evs).exit = none ∧
        (aggregate f Stats.initial evs).handled = evs.length) ∨
      (f.flagLimit ≤ (numFailures evs : Int) ∧
        (aggregate f Stats.initial evs).exit = some 1 ∧
        ∃ i, (aggregate f Stats.initial evs).handled = i + 1 ∧
          (numFailures (evs.take i) : Int) = f.flagLimit - 1 ∧
          (numFailures (evs.take (i + 1)) : Int) = f.flagLimit)) ∧
    (∀ s, (step f s .tick).exit = none) ∧
    (∀ s d tmp, (step f s (.res ⟨[], d⟩ tmp)).exit = none) := by
  refine ⟨?_, fun s => rfl, fun s d tmp => (step_not_failure f s (.res ⟨[], d⟩ tmp) rfl).1⟩
  have h := aggregate_limit f hff hK evs Stats.initial hok (le_refl _) (by
    show (0 : Int) < f.flagLimit
    omega)
  simpa [Stats.initial] using h

/-- The example events with limit 3: `os.Exit(1)` at the third failing run. -/
theorem aggregate_exits_at_limit_witness :
    (exampleFlags.flagFailFast = false ∧ 1 ≤ exampleFlags.flagLimit ∧
      exampleFlags.flagLimit < 2 ^ 63 ∧ ∀ e ∈ exampleEvents, e.tempFileOk = true) ∧
    ((((numFailures exampleEvents : Int) < exampleFlags.flagLimit ∧
        (aggregate exampleFlags Stats.initial exampleEvents).exit = none ∧
        (aggregate exampleFlags Stats.initial exampleEvents).handled = exampleEvents.length) ∨
      (exampleFlags.flagLimit ≤ (numFailures exampleEvents : Int) ∧
        (aggregate exampleFlags Stats.initial exampleEvents).exit = some 1 ∧
        ∃ i, (aggregate exampleFlags Stats.initial exampleEvents).handled = i + 1 ∧
          (numFailures (exampleEvents.take i) : Int) = exampleFlags.flagLimit - 1 ∧
          (numFailures (exampleEvents.take (i + 1)) : Int) = exampleFlags.flagLimit)) ∧
    (∀ s, (step exampleFlags s .tick).exit = none) ∧
    (∀ s d tmp, (step exampleFlags s (.res ⟨[], d⟩ tmp)).exit = none)) :=
  ⟨⟨rfl, by decide, by decide, by decide⟩,
    aggregate_exits_at_limit exampleFlags exampleEvents rfl (by decide) (by decide)
      (by decide)⟩

/-- C3. With `-f` set and every `ioutil.TempFile` succeeding, whatever the limit
and the variables at the start: if no result among the events has a non-empty
`out`, the loop handles them all without calling `os.Exit`; otherwise it calls
`os.Exit(1)` while handling the event of index `i`, where the events before `i`
hold no result with a non-empty `out` and those up to `i` hold one, that is, event
`i` is the first such result. A tick and a result with an empty `out` never end
the loop. -/
theorem aggregate_exits_at_first_failure (f : Flags) (s : Stats) (evs : List Event)
    (hff : f.flagFailFast = true) (hok : ∀ e ∈ evs, e.tempFileOk = true) :
    ((numFailures evs = 0 ∧ (aggregate f s evs).exit = none ∧
        (aggregate f s evs).handled = evs.length) ∨
      (0 < numFailures evs ∧ (aggregate f s evs).exit = some 1 ∧
        ∃ i, (aggregate f s evs).handled = i + 1 ∧
          numFailures (evs.take i) = 0 ∧ numFailures (evs.take (i + 1)) = 1)) ∧
    (∀ s, (step f s .tick).exit = none) ∧
    (∀ s d tmp, (step f s (.res ⟨[], d⟩ tmp)).exit = none) :=
  ⟨aggregate_failFast f hff evs s hok, fun _ => rfl,
    fun s d tmp => (step_not_failure f s (.res ⟨[], d⟩ tmp) rfl).1⟩

/-- The example events with `-f`: `os.Exit(1)` at the first failing run. -/
theorem aggregate_exits_at_first_failure_witness :
    (exampleFlagsFailFast.flagFailFast = true ∧ ∀ e ∈ exampleEvents, e.tempFileOk = true) ∧
    (((numFailures exampleEvents = 0 ∧
        (aggregate exampleFlagsFailFast Stats.initial exampleEvents).exit = none ∧
        (aggregate exampleFlagsFailFast Stats.initial exampleEvents).handled =
          exampleEvents.length) ∨
      (0 < numFailures exampleEvents ∧
        (aggregate exampleFlagsFailFast Stats.initial exampleEvents).exit = some 1 ∧
        ∃ i, (aggregate exampleFlagsFailFast Stats.initial exampleEvents).handled = i + 1 ∧
          numFailures (exampleEvents.take i) = 0 ∧
          numFailures (exampleEvents.take (i + 1)) = 1)) ∧
    (∀ s, (step exampleFlagsFailFast s .tick).exit = none) ∧
    (∀ s d tmp, (step exampleFlagsFailFast s (.res ⟨[], d⟩ tmp)).exit = none)) :=
  ⟨⟨rfl, by decide⟩,
    aggregate_exits_at_first_failure exampleFlagsFailFast Stats.initial exampleEvents rfl
      (by decide)⟩

/-- C4. After the loop has handled events holding fewer than `2^63` results
without calling `os.Exit`, `runs` is the number of results among them and `fails`
the number of those with a non-empty `out`; a tick leaves all variables as they
are. -/
theorem aggregate_counts (f : Flags) (evs : List Event)
    (hx : (aggregate f Stats.initial evs).exit = none) (hn : numResults evs < 2 ^ 63) :
    (aggregate f Stats.initial evs).state.runs = numResults evs ∧
    (aggregate f Stats.initial evs).state.fails = numFailures evs ∧
    (∀ s, (step f s .tick).state = s) := by
  have hh := aggregate_handled_of_exit_none f evs Stats.initial hx
  have h := aggregate_counters f evs Stats.initial (le_refl _) (le_refl _) (by
    show (0 : Int) + (numResults evs : Int) < 2 ^ 63
    have : ((numResults evs : Nat) : Int) < ((2 ^ 63 : Nat) : Int) := by exact_mod_cast hn
    simpa using this)
  rw [hh, List.take_length] at h
  refine ⟨?_, ?_, fun s => rfl⟩
  · simpa [Stats.initial] using h.1
  · simpa [Stats.initial] using h.2

/-- The first three of the example events: two results, one of them failing. -/
theorem aggregate_counts_witness :
    ((aggregate exampleFlags Stats.initial (exampleEvents.take 3)).exit = none ∧
      numResults (exampleEvents.take 3) < 2 ^ 63) ∧
    ((aggregate exampleFlags Stats.initial (exampleEvents.take 3)).state.runs =
        numResults (exampleEvents.take 3) ∧
      (aggregate exampleFlags Stats.initial (exampleEvents.take 3)).state.fails =
        numFailures (exampleEvents.take 3) ∧
      (∀ s, (step exampleFlags s .tick).state = s)) :=
  ⟨⟨by decide, by decide⟩,
    aggregate_counts exampleFlags (exampleEvents.take 3) (by decide) (by decide)⟩

/-- C5. From the initial variables (`min = 1<<63 - 1`, `max = 0`,
`totalDuration = 0`), once the loop has handled at least one result and the sum of
the durations handled is in the range of `int64`: every duration handled lies
between `min` and `max`, and so does `totalDuration` divided, by the division of
Go, by the number of results handled. -/
theorem aggregate_duration_bounds (f : Flags) (evs : List Event)
    (hne : durations (evs.take (aggregate f Stats.initial evs).handled) ≠ [])
    (hlo : -2 ^ 63 ≤ (durations (evs.take (aggregate f Stats.initial evs).handled)).sum)
    (hhi : (durations (evs.take (aggregate f Stats.initial evs).handled)).sum < 2 ^ 63) :
    (∀ d ∈ durations (evs.take (aggregate f Stats.initial evs).handled),
      (aggregate f Stats.initial evs).state.min ≤ d ∧
      d ≤ (aggregate f Stats.initial evs).state.max) ∧
    (aggregate f Stats.initial evs).state.min ≤
      Int.tdiv (aggregate f Stats.initial evs).state.totalDuration
        (durations (evs.take (aggregate f Stats.initial evs).handled)).length ∧
    Int.tdiv (aggregate f Stats.initial evs).state.totalDuration
        (durations (evs.take (aggregate f Stats.initial evs).handled)).length ≤
      (aggregate f Stats.initial evs).state.max := by
  obtain ⟨-, -, hb, ht⟩ := aggregate_durations f evs Stats.initial (by decide)
  refine ⟨hb, ?_⟩
  obtain ⟨s1, s2⟩ := sum_bounds _ _ _ hb
  have hpos : (0 : Int) <
      ((durations (evs.take (aggregate f Stats.initial evs).handled)).length : Int) := by
    have := List.length_pos.mpr hne
    exact_mod_cast this
  have hsum : (aggregate f Stats.initial evs).state.totalDuration =
      (durations (evs.take (aggregate f Stats.initial evs).handled)).sum := by
    rw [ht]
    simp only [Stats.initial, zero_add]
    exact wrap64_of_range _ hlo hhi
  rw [hsum]
  exact tdiv_bounds _ _ _ _ hpos s1 s2

/-- The example events, handled up to the call of `os.Exit`. -/
theorem aggregate_duration_bounds_witness :
    (durations (exampleEvents.take
        (aggregate exampleFlags Stats.initial exampleEvents).handled) ≠ [] ∧
      -2 ^ 63 ≤ (durations (exampleEvents.take
        (aggregate exampleFlags Stats.initial exampleEvents).handled)).sum ∧
      (durations (exampleEvents.take
        (aggregate exampleFlags Stats.initial exampleEvents).handled)).sum < 2 ^ 63) ∧
    ((∀ d ∈ durations (exampleEvents.take
          (aggregate exampleFlags Stats.initial exampleEvents).handled),
        (aggregate exampleFlags Stats.initial exampleEvents).state.min ≤ d ∧
        d ≤ (aggregate exampleFlags Stats.initial exampleEvents).state.max) ∧
      (aggregate exampleFlags Stats.initial exampleEvents).state.min ≤
        Int.tdiv (aggregate exampleFlags Stats.initial exampleEvents).state.totalDuration
          (durations (exampleEvents.take
            (aggregate exampleFlags Stats.initial exampleEvents).handled)).length ∧
      Int.tdiv (aggregate exampleFlags Stats.initial exampleEvents).state.totalDuration
          (durations (exampleEvents.take
            (aggregate exampleFlags Stats.initial exampleEvents).handled)).length ≤
        (aggregate exampleFlags Stats.initial exampleEvents).state.max) :=
  ⟨⟨by decide, by decide, by decide⟩,
    aggregate_duration_bounds exampleFlags exampleEvents (by decide) (by decide)
      (by decide)⟩

/-- C6, at one failing run of 30ms handled from the initial variables: the second
progress line printed shows 15ms as the average (30ms divided by `runs + fails`,
which is 2), while the minimum shown is 30ms. -/
theorem displayProgress_average_below_min :
    (aggregate exampleFlags Stats.initial [.res failingResult (.ok "/tmp/x1")]).trace.get? 1 =
      some (.printf
        "%v runs so far, %v failures (%.2f%% pass rate). %v avg, %v max, %v min\n"
        [.int 1, .int 1, .passRate 1 2, .dur 15000000, .dur 30000000, .dur 30000000]) := by
  decide

/-! ## Files and the order of the actions -/

theorem displayProgress_printf (s : Stats) :
    ∃ fmt args, displayProgress s = .printf fmt args := by
  unfold displayProgress
  simp only
  split
  · exact ⟨_, _, rfl⟩
  · exact ⟨_, _, rfl⟩

theorem printFailure_printf (name : String) (out : List Byte) :
    ∃ fmt args, printFailure name out = .printf fmt args := by
  unfold printFailure
  split
  · exact ⟨_, _, rfl⟩
  · exact ⟨_, _, rfl⟩

theorem step_res_empty (f : Flags) (s : Stats) (r : result) (tmp : Except String String)
    (h : r.out = []) :
    step f s (.res r tmp) =
      ⟨record s r, if (record s r).runs = 1 then [displayProgress (record s r)] else [],
        none⟩ := by
  unfold step
  simp [h]

theorem step_res_error (f : Flags) (s : Stats) (r : result) (e : String) (h : r.out ≠ []) :
    step f s (.res r (.error e)) =
      ⟨{ record s r with fails := wrap64 ((record s r).fails + 1) },
        (if (record s r).runs = 1 then [displayProgress (record s r)] else []) ++
          [displayProgress { record s r with fails := wrap64 ((record s r).fails + 1) },
           .tempFile f.flagOutput (.error e),
           .printf "failed to create temp file: %v\n" [.str e]],
        some 1⟩ := by
  unfold step onFailure
  simp [h]

theorem step_res_ok (f : Flags) (s : Stats) (r : result) (name : String) (h : r.out ≠ []) :
    step f s (.res r (.ok name)) =
      ⟨{ record s r with fails := wrap64 ((record s r).fails + 1) },
        (if (record s r).runs = 1 then [displayProgress (record s r)] else []) ++
          [displayProgress { record s r with fails := wrap64 ((record s r).fails + 1) },
           .tempFile f.flagOutput (.ok name), .write name r.out, .close name,
           printFailure name r.out] ++
          (if f.flagFailFast = true then [.printf "fail fast enabled, exiting\n" []]
           else if wrap64 ((record s r).fails + 1) ≥ f.flagLimit then
             [.printf "failure limit hit, exiting\n" []]
           else []),
        if f.flagFailFast = true then some 1
        else if wrap64 ((record s r).fails + 1) ≥ f.flagLimit then some 1
        else none⟩ := by
  unfold step onFailure
  simp only [List.length_eq_zero, h, if_false]
  by_cases hff : f.flagFailFast = true
  · simp [hff]
  · by_cases hl : wrap64 ((record s r).fails + 1) ≥ f.flagLimit
    · simp [hff, hl]
    · simp [hff, hl]

theorem tempFileCalls_append (a b : List Action) :
    tempFileCalls (a ++ b) = tempFileCalls a + tempFileCalls b := by
  induction a with
  | nil => simp [tempFileCalls]
  | cons x xs ih =>
    cases x <;> simp [tempFileCalls, ih]
    omega

theorem filesCreated_append (a b : List Action) :
    filesCreated (a ++ b) = filesCreated a ++ filesCreated b := by
  induction a with
  | nil => simp [filesCreated]
  | cons x xs ih =>
    cases x with
    | tempFile o ans => cases ans <;> simp [filesCreated, ih]
    | _ => simp [filesCreated, ih]

theorem writes_append (a b : List Action) : writes (a ++ b) = writes a ++ writes b := by
  induction a with
  | nil => simp [writes]
  | cons x xs ih => cases x <;> simp [writes, ih]

theorem quiet_printf (fmt : String) (args : List Arg) (as : List Action) :
    tempFileCalls (.printf fmt args :: as) = tempFileCalls as ∧
    filesCreated (.printf fmt args :: as) = filesCreated as ∧
    writes (.printf fmt args :: as) = writes as := by
  simp [tempFileCalls, filesCreated, writes]

theorem quiet_displayProgress (s : Stats) (as : List Action) :
    tempFileCalls (displayProgress s :: as) = tempFileCalls as ∧
    filesCreated (displayProgress s :: as) = filesCreated as ∧
    writes (displayProgress s :: as) = writes as := by
  obtain ⟨fmt, args, h⟩ := displayProgress_printf s
  rw [h]
  exact quiet_printf fmt args as

theorem quiet_printFailure (name : String) (out : List Byte) (as : List Action) :
    tempFileCalls (printFailure name out :: as) = tempFileCalls as ∧
    filesCreated (printFailure name out :: as) = filesCreated as ∧
    writes (printFailure name out :: as) = writes as := by
  obtain ⟨fmt, args, h⟩ := printFailure_printf name out
  rw [h]
  exact quiet_printf fmt args as

theorem quiet_first (c : Prop) [Decidable c] (s : Stats) :
    tempFileCalls (if c then [displayProgress s] else []) = 0 ∧
    filesCreated (if c then [displayProgress s] else []) = [] ∧
    writes (if c then [displayProgress s] else []) = [] := by
  split
  · simp [quiet_displayProgress, tempFileCalls, filesCreated, writes]
  · simp [tempFileCalls, filesCreated, writes]

theorem quiet_policy (c d : Prop) [Decidable c] [Decidable d] (m n : String) :
    tempFileCalls (if c then [Action.printf m []] else if d then [Action.printf n []] else [])
      = 0 ∧
    filesCreated (if c then [Action.printf m []] else if d then [Action.printf n []] else [])
      = [] ∧
    writes (if c then [Action.printf m []] else if d then [Action.printf n []] else [])
      = [] := by
  split
  · simp [tempFileCalls, filesCreated, writes]
  · split <;> simp [tempFileCalls, filesCreated, writes]

theorem bytesWritten_eq_map (accepted : String → List Byte → Nat) (as : List Action) :
    bytesWritten accepted as =
      (writes as).map (fun w => (w.1, w.2.take (accepted w.1 w.2))) := by
  induction as with
  | nil => simp [bytesWritten, writes]
  | cons x xs ih => cases x <;> simp [bytesWritten, writes, ih]

/-- C7, as the claim states it, fails twice for a result with a non-empty `out`:
when `ioutil.TempFile` returns an error, no file is created, nothing is written
and `os.Exit(1)` is called; when the file is created and `Write` fails having
written nothing, the file is left empty and the loop goes on. -/
theorem tempFile_error_no_file :
    failingResult.out ≠ [] ∧
    (filesCreated (step exampleFlags Stats.initial
        (.res failingResult (.error "no space left on device"))).trace = [] ∧
      writes (step exampleFlags Stats.initial
        (.res failingResult (.error "no space left on device"))).trace = [] ∧
      (step exampleFlags Stats.initial
        (.res failingResult (.error "no space left on device"))).exit = some 1) ∧
    (filesCreated (step exampleFlags Stats.initial
        (.res failingResult (.ok "/tmp/x1"))).trace = ["/tmp/x1"] ∧
      bytesWritten (fun _ _ => 0) (step exampleFlags Stats.initial
        (.res failingResult (.ok "/tmp/x1"))).trace = [("/tmp/x1", [])] ∧
      (step exampleFlags Stats.initial
        (.res failingResult (.ok "/tmp/x1"))).exit = none) := by
  decide

/-- C7, amended. While a result is handled, `ioutil.TempFile` is not called and
nothing is written if its `out` is empty, and `ioutil.TempFile` is called once if
its `out` is not empty. When the call succeeds, one file is created and one
`Write` is issued, to that file and with the whole `out` as its argument; the
bytes written are the first `n` bytes of `out`, `n` being the count `Write`
returns, hence the whole `out`, nothing cut and nothing added, when `Write`
accepts all of it. When the call fails, no file is created, nothing is written,
the last action is the print of the error and `os.Exit(1)` is called. A tick
creates and writes nothing. The `out` a worker sends is empty, or the captured
output followed by `"\nERROR: "` and the text of the error. -/
theorem step_persists (f : Flags) (s : Stats) (r : result) (tmp : Except String String)
    (accepted : String → List Byte → Nat)
    (failureRe ignoreRe : Option Matcher) (out : List Byte) (err : Option (List Byte))
    (elapsed : Int) :
    ((r.out = [] ∧ tempFileCalls (step f s (.res r tmp)).trace = 0 ∧
        filesCreated (step f s (.res r tmp)).trace = [] ∧
        writes (step f s (.res r tmp)).trace = [] ∧
        bytesWritten accepted (step f s (.res r tmp)).trace = []) ∨
      (r.out ≠ [] ∧ tempFileCalls (step f s (.res r tmp)).trace = 1 ∧
        ((∃ name, tmp = .ok name ∧ filesCreated (step f s (.res r tmp)).trace = [name] ∧
            writes (step f s (.res r tmp)).trace = [(name, r.out)] ∧
            bytesWritten accepted (step f s (.res r tmp)).trace =
              [(name, r.out.take (accepted name r.out))] ∧
            bytesWritten (fun _ b => b.length) (step f s (.res r tmp)).trace =
              [(name, r.out)]) ∨
          (∃ e, tmp = .error e ∧ filesCreated (step f s (.res r tmp)).trace = [] ∧
            writes (step f s (.res r tmp)).trace = [] ∧
            bytesWritten accepted (step f s (.res r tmp)).trace = [] ∧
            (step f s (.res r tmp)).trace.getLast? =
              some (.printf "failed to create temp file: %v\n" [.str e]) ∧
            (step f s (.res r tmp)).exit = some 1)))) ∧
    (tempFileCalls (step f s .tick).trace = 0 ∧ writes (step f s .tick).trace = [] ∧
      bytesWritten accepted (step f s .tick).trace = []) ∧
    ((workerResult failureRe ignoreRe out err elapsed).out = [] ∨
      ∃ text, err = some text ∧
        (workerResult failureRe ignoreRe out err elapsed).out = out ++ errorTrailer ++ text) := by
  refine ⟨?_, ?_, ?_⟩
  · by_cases h : r.out = []
    · left
      have hw : writes (step f s (.res r tmp)).trace = [] := by
        rw [step_res_empty f s r tmp h]
        exact (quiet_first _ _).2.2
      refine ⟨h, ?_, ?_, hw, by rw [bytesWritten_eq_map, hw]; rfl⟩
      · rw [step_res_empty f s r tmp h]
        exact (quiet_first _ _).1
      · rw [step_res_empty f s r tmp h]
        exact (quiet_first _ _).2.1
    · right
      refine ⟨h, ?_⟩
      cases tmp with
      | error e =>
        have hw : writes (step f s (.res r (.error e))).trace = [] := by
          rw [step_res_error f s r e h]
          simp [writes_append, quiet_first, quiet_displayProgress, writes]
        have hb : bytesWritten accepted (step f s (.res r (.error e))).trace = [] := by
          rw [bytesWritten_eq_map, hw]; rfl
        refine ⟨?_, Or.inr ⟨e, rfl, ?_, hw, hb, ?_, ?_⟩⟩
        · rw [step_res_error f s r e h]
          simp [tempFileCalls_append, quiet_first, quiet_displayProgress, tempFileCalls]
        · rw [step_res_error f s r e h]
          simp [filesCreated_append, quiet_first, quiet_displayProgress, filesCreated]
        · rw [step_res_error f s r e h]
          simp [List.getLast?_append]
        · rw [step_res_error f s r e h]
      | ok name =>
        have hw : writes (step f s (.res r (.ok name))).trace = [(name, r.out)] := by
          rw [step_res_ok f s r name h]
          simp [writes_append, quiet_first, quiet_displayProgress, quiet_printFailure,
            quiet_policy, writes]
        refine ⟨?_, Or.inl ⟨name, rfl, ?_, hw, ?_, ?_⟩⟩
        · rw [step_res_ok f s r name h]
          simp [tempFileCalls_append, quiet_first, quiet_displayProgress,
            quiet_printFailure, quiet_policy, tempFileCalls]
        · rw [step_res_ok f s r name h]
          simp [filesCreated_append, quiet_first, quiet_displayProgress,
            quiet_printFailure, quiet_policy, filesCreated]
        · rw [bytesWritten_eq_map, hw]; rfl
        · rw [bytesWritten_eq_map, hw]
          simp
  · rw [step_tick]
    have hw : writes [displayProgress s] = [] := by simp [quiet_displayProgress, writes]
    refine ⟨by simp [quiet_displayProgress, tempFileCalls], hw, ?_⟩
    rw [bytesWritten_eq_map, hw]; rfl
  · cases err with
    | none => left; rfl
    | some text =>
      by_cases hc : (workerResult failureRe ignoreRe out (some text) elapsed).out = []
      · left; exact hc
      · right
        refine ⟨text, rfl, ?_⟩
        simp only [workerResult, classify] at hc ⊢
        split at hc
        · simp_all
        · exact absurd rfl hc

/-- C10, as the claim states it, fails: for a failing run handled after one
passing run, the progress line is printed first, before `ioutil.TempFile` is
called, and not after the name of the file and the output are printed. -/
theorem snapshot_before_persist :
    (step exampleFlags
        (aggregate exampleFlags Stats.initial [.res passingResult (.ok "/tmp/x0")]).state
        (.res failingResult (.ok "/tmp/x1"))).trace =
      [.printf "%v runs so far, %v failures (%.2f%% pass rate). %v avg, %v max, %v min\n"
         [.int 2, .int 1, .passRate 2 3, .dur 13333333, .dur 30000000, .dur 10000000],
       .tempFile "/tmp/x" (.ok "/tmp/x1"),
       .write "/tmp/x1" failingResult.out,
       .close "/tmp/x1",
       .printf "%s\n%s\n" [.str "/tmp/x1", .bytes failingResult.out]] ∧
    (step exampleFlags
        (aggregate exampleFlags Stats.initial [.res passingResult (.ok "/tmp/x0")]).state
        (.res failingResult (.ok "/tmp/x1"))).trace ≠
      [.tempFile "/tmp/x" (.ok "/tmp/x1"),
       .write "/tmp/x1" failingResult.out,
       .close "/tmp/x1",
       .printf "%s\n%s\n" [.str "/tmp/x1", .bytes failingResult.out],
       .printf "%v runs so far, %v failures (%.2f%% pass rate). %v avg, %v max, %v min\n"
         [.int 2, .int 1, .passRate 2 3, .dur 13333333, .dur 30000000, .dur 10000000]] := by
  decide

/-- C10, amended. For a result with a non-empty `out`, with `-f` unset, the limit
not reached and `ioutil.TempFile` succeeding, the actions that follow `fails++`
are, in this order: the progress line is printed; the file is created, the whole
`out` is written to it and it is closed; the name of the file and the output are
printed, the output cut to its first 2048 bytes and followed by a line with an
ellipsis when it is longer than 2048 bytes, whole otherwise; then the policy is
evaluated and `os.Exit` is not called. (Before `fails++`, a progress line is
printed when `runs` is 1.) -/
theorem step_failure_order (f : Flags) (s : Stats) (r : result) (name : String)
    (h : r.out ≠ []) (hff : f.flagFailFast = false)
    (hlim : wrap64 (s.fails + 1) < f.flagLimit) :
    step f s (.res r (.ok name)) =
      ⟨{ record s r with fails := wrap64 (s.fails + 1) },
        (if (record s r).runs = 1 then [displayProgress (record s r)] else []) ++
          [displayProgress { record s r with fails := wrap64 (s.fails + 1) },
           .tempFile f.flagOutput (.ok name),
           .write name r.out,
           .close name,
           if r.out.length > 2048 then
             .printf "%s\n%s\n…\n" [.str name, .bytes (r.out.take 2048)]
           else .printf "%s\n%s\n" [.str name, .bytes r.out]],
        none⟩ := by
  rw [step_res_ok f s r name h]
  have hl : ¬ wrap64 ((record s r).fails + 1) ≥ f.flagLimit := by
    show ¬ wrap64 (s.fails + 1) ≥ f.flagLimit
    omega
  simp only [hff, Bool.false_eq_true, if_false, hl, List.append_nil]
  rfl

/-- A failing run handled from the initial variables, with limit 3. -/
theorem step_failure_order_witness :
    (failingResult.out ≠ [] ∧ exampleFlags.flagFailFast = false ∧
      wrap64 (Stats.initial.fails + 1) < exampleFlags.flagLimit) ∧
    step exampleFlags Stats.initial (.res failingResult (.ok "/tmp/x1")) =
      ⟨{ record Stats.initial failingResult with fails := wrap64 (Stats.initial.fails + 1) },
        (if (record Stats.initial failingResult).runs = 1 then
            [displayProgress (record Stats.initial failingResult)] else []) ++
          [displayProgress
             { record Stats.initial failingResult with
               fails := wrap64 (Stats.initial.fails + 1) },
           .tempFile exampleFlags.flagOutput (.ok "/tmp/x1"),
           .write "/tmp/x1" failingResult.out,
           .close "/tmp/x1",
           if failingResult.out.length > 2048 then
             .printf "%s\n%s\n…\n" [.str "/tmp/x1", .bytes (failingResult.out.take 2048)]
           else .printf "%s\n%s\n" [.str "/tmp/x1", .bytes failingResult.out]],
        none⟩ :=
  ⟨⟨by decide, rfl, by decide⟩,
    step_failure_order exampleFlags Stats.initial failingResult "/tmp/x1" (by decide) rfl
      (by decide)⟩

end Stress
